import Mathlib

/-!
Verification development for the fuzztok fuzzy token estimator.

Texts are modelled as lists of Unicode code points (the sequence produced
by JavaScript string iteration).  JavaScript UTF-16 artefacts are modelled
explicitly: `strLen` is the UTF-16 length that `String.prototype.length`
reports, and `charCodeAt0` is the value `charCodeAt(0)` returns on a
single iterated character (the high surrogate for supplementary-plane
code points).  Numbers are modelled by rationals.
-/

/-- UTF-16 code-unit count of a single code point. -/
def utf16Len (c : Nat) : Nat := if c < 0x10000 then 1 else 2

/-- UTF-16 length of a text, as JavaScript `.length` reports it. -/
def strLen (t : List Nat) : Nat := (t.map utf16Len).sum

/-- Value of `charCodeAt(0)` on the one-character string holding code point
`c`: the code point itself inside the BMP, otherwise the high surrogate. -/
def charCodeAt0 (c : Nat) : Nat :=
  if c < 0x10000 then c else 0xd800 + (c - 0x10000) / 0x400

/-- The fixed list of CJK block range tests from `isCJKCharacter`, applied
to a candidate code value. -/
def inCJKRanges (code : Nat) : Bool :=
  (0x2e80 ≤ code && code ≤ 0x2eff) ||
  (0x3000 ≤ code && code ≤ 0x303f) ||
  (0x3040 ≤ code && code ≤ 0x309f) ||
  (0x30a0 ≤ code && code ≤ 0x30ff) ||
  (0x3100 ≤ code && code ≤ 0x312f) ||
  (0x3130 ≤ code && code ≤ 0x318f) ||
  (0x3190 ≤ code && code ≤ 0x319f) ||
  (0x31a0 ≤ code && code ≤ 0x31bf) ||
  (0x31c0 ≤ code && code ≤ 0x31ef) ||
  (0x31f0 ≤ code && code ≤ 0x31ff) ||
  (0x3200 ≤ code && code ≤ 0x32ff) ||
  (0x3300 ≤ code && code ≤ 0x33ff) ||
  (0x3400 ≤ code && code ≤ 0x4dbf) ||
  (0x4e00 ≤ code && code ≤ 0x9fff) ||
  (0xa000 ≤ code && code ≤ 0xa48f) ||
  (0xa490 ≤ code && code ≤ 0xa4cf) ||
  (0xac00 ≤ code && code ≤ 0xd7af) ||
  (0xf900 ≤ code && code ≤ 0xfaff) ||
  (0xfe30 ≤ code && code ≤ 0xfe4f) ||
  (0xff00 ≤ code && code ≤ 0xffef) ||
  (0x20000 ≤ code && code ≤ 0x2a6df) ||
  (0x2a700 ≤ code && code ≤ 0x2b73f) ||
  (0x2b740 ≤ code && code ≤ 0x2b81f) ||
  (0x2b820 ≤ code && code ≤ 0x2ceaf) ||
  (0x2ceb0 ≤ code && code ≤ 0x2ebef) ||
  (0x30000 ≤ code && code ≤ 0x3134f)

/-- `CharacterClassifier.isCJKCharacter`: the source reads
`const code = char.charCodeAt(0)` and then tests the range list. -/
def isCJKCharacter (c : Nat) : Bool := inCJKRanges (charCodeAt0 c)

/-- Latin test of `getCharacterType`, the character class
`[a-zA-ZÀ-ɏḀ-ỿ]`.  All its ranges lie below the
surrogate block, so testing the code point directly agrees with the
JavaScript regex tested against the possibly two-unit string. -/
def isLatinChar (c : Nat) : Bool :=
  (0x41 ≤ c && c ≤ 0x5a) || (0x61 ≤ c && c ≤ 0x7a) ||
  (0xc0 ≤ c && c ≤ 0x24f) || (0x1e00 ≤ c && c ≤ 0x1eff)

/-- Digit test of `getCharacterType`, the character class
`[0-9٠-٩۰-۹]`. -/
def isDigitChar (c : Nat) : Bool :=
  (0x30 ≤ c && c ≤ 0x39) || (0x660 ≤ c && c ≤ 0x669) ||
  (0x6f0 ≤ c && c ≤ 0x6f9)

/-- Whitespace test of `getCharacterType`, the ECMAScript `\s` class. -/
def isWhitespaceChar (c : Nat) : Bool :=
  (0x9 ≤ c && c ≤ 0xd) || c == 0x20 || c == 0xa0 || c == 0x1680 ||
  (0x2000 ≤ c && c ≤ 0x200a) || c == 0x2028 || c == 0x2029 ||
  c == 0x202f || c == 0x205f || c == 0x3000 || c == 0xfeff

/-- The five character categories of the classifier. -/
inductive CharType where
  | cjk
  | latin
  | digit
  | symbol
  | whitespace
deriving DecidableEq, Repr

/-- `CharacterClassifier.getCharacterType`: CJK first, then Latin, then
digit, then whitespace, and symbol as the default. -/
def getCharacterType (c : Nat) : CharType :=
  if isCJKCharacter c then .cjk
  else if isLatinChar c then .latin
  else if isDigitChar c then .digit
  else if isWhitespaceChar c then .whitespace
  else .symbol

/-- Result record of `analyzeTextComposition`. -/
structure TextComposition where
  cjk : Nat
  latin : Nat
  digits : Nat
  symbols : Nat
  whitespace : Nat
  total : Nat
  cjkRatio : ℚ
deriving DecidableEq, Repr

/-- `CharacterClassifier.analyzeTextComposition`: per-category counts over
the iterated characters, `total` set to the UTF-16 string length, and
`cjkRatio = cjk / total` guarded to `0` on empty totals. -/
def analyzeTextComposition (t : List Nat) : TextComposition :=
  let cjk := t.countP (fun c => decide (getCharacterType c = .cjk))
  let latin := t.countP (fun c => decide (getCharacterType c = .latin))
  let digits := t.countP (fun c => decide (getCharacterType c = .digit))
  let symbols := t.countP (fun c => decide (getCharacterType c = .symbol))
  let whitespace := t.countP (fun c => decide (getCharacterType c = .whitespace))
  let total := strLen t
  { cjk := cjk, latin := latin, digits := digits, symbols := symbols,
    whitespace := whitespace, total := total,
    cjkRatio := if 0 < total then (cjk : ℚ) / (total : ℚ) else 0 }


/-- Whitespace handling policy of the configuration. -/
inductive WhitespaceHandling where
  | ignore
  | count
  | compress
deriving DecidableEq, Repr

/-- `FuzzyModelConfig`: the per-model weighting record.  The optional
TypeScript fields are `Option`-valued. -/
structure FuzzyModelConfig where
  charsPerToken : ℚ
  overhead : ℚ
  cjkTokensPerChar : ℚ
  mixedTextMultiplier : ℚ
  numberTokensPerChar : Option ℚ
  symbolTokensPerChar : Option ℚ
  whitespaceHandling : Option WhitespaceHandling
deriving DecidableEq, Repr

/-- JavaScript `x || d` on an optional number: `undefined` and `0` are
falsy and fall through to the default. -/
def jsOrQ (o : Option ℚ) (d : ℚ) : ℚ :=
  match o with
  | none => d
  | some x => if x = 0 then d else x

/-- JavaScript `x || d` where `x` is an optional string: `undefined` and
the empty string are falsy and fall through to the default. -/
def jsOrStr (o : Option String) (d : String) : String :=
  match o with
  | none => d
  | some s => if s = "" then d else s

/-- The hardcoded `DEFAULT_FALLBACK_CONFIG` of the source. -/
def DEFAULT_FALLBACK_CONFIG : FuzzyModelConfig :=
  { charsPerToken := 4, overhead := 10, cjkTokensPerChar := 1.5,
    mixedTextMultiplier := 1.05, numberTokensPerChar := some 3.5,
    symbolTokensPerChar := some 2.5,
    whitespaceHandling := some .compress }

/-- State of a `FuzzyTokenEstimator`: the injected provider (a partial
map from model names to configurations), the fallback configuration and
the optional default model name. -/
structure FuzzyTokenEstimator where
  provider : String → Option FuzzyModelConfig
  fallbackConfig : FuzzyModelConfig
  defaultModel : Option String

/-- Resolution of the model name in `getModelConfig`:
`modelName || this.defaultModel || 'unknown'` with JavaScript string
falsiness. -/
def resolveModelName (modelName : Option String) (defaultModel : Option String) : String :=
  jsOrStr modelName (jsOrStr defaultModel "unknown")

/-- `FuzzyTokenEstimator.getModelConfig`: resolve the name, look it up in
the provider, and fall back to the fallback configuration when absent. -/
def getModelConfig (e : FuzzyTokenEstimator) (modelName : Option String) :
    FuzzyModelConfig × String :=
  let model := resolveModelName modelName e.defaultModel
  ((e.provider model).getD e.fallbackConfig, model)

/-- Per-category token subtotals of an estimation, `breakdown` in the
source. -/
structure Breakdown where
  cjk : ℚ
  latin : ℚ
  digits : ℚ
  symbols : ℚ
  overhead : ℚ
deriving DecidableEq, Repr

/-- The `textAnalysis` part of an estimation result. -/
structure TextAnalysis where
  totalChars : Nat
  cjkRatio : ℚ
  adjustmentFactor : ℚ
deriving DecidableEq, Repr

/-- Confidence labels. -/
inductive Confidence where
  | high
  | medium
  | low
deriving DecidableEq, Repr

/-- `EstimationResult` record.  `tokens` is rational because the
empty-text path returns the raw overhead, which need not be integral. -/
structure EstimationResult where
  tokens : ℚ
  breakdown : Breakdown
  textAnalysis : TextAnalysis
  confidence : Confidence
  modelUsed : String
deriving DecidableEq, Repr

/-- `processGroup` of `estimateDetailed`: fold one completed run of
characters of category `ty` into the breakdown.  Run lengths are UTF-16
lengths, as `currentGroup.length` reports. -/
def processGroup (cfg : FuzzyModelConfig) (b : Breakdown) (ty : CharType)
    (g : List Nat) : Breakdown :=
  match ty with
  | .cjk => { b with cjk := b.cjk + (strLen g : ℚ) * cfg.cjkTokensPerChar }
  | .latin =>
      { b with latin := b.latin + ((⌈(strLen g : ℚ) / cfg.charsPerToken⌉ : ℤ) : ℚ) }
  | .digit =>
      { b with digits := b.digits +
          ((⌈(strLen g : ℚ) / jsOrQ cfg.numberTokensPerChar 3.5⌉ : ℤ) : ℚ) }
  | .symbol =>
      { b with symbols := b.symbols +
          ((⌈(strLen g : ℚ) / jsOrQ cfg.symbolTokensPerChar 2.5⌉ : ℤ) : ℚ) }
  | .whitespace =>
      if cfg.whitespaceHandling = some .count then
        { b with symbols := b.symbols + (strLen g : ℚ) * 0.3 }
      else b

/-- Accumulator loop of `estimateDetailed`: splits the text into maximal
runs of same-category characters.  `ct` is the category and `acc` the
reversed content of the currently open run. -/
def groupRunsAux (ct : CharType) (acc : List Nat) :
    List Nat → List (CharType × List Nat)
  | [] => [(ct, acc.reverse)]
  | c :: rest =>
    let ty := getCharacterType c
    if ty = ct then groupRunsAux ct (c :: acc) rest
    else (ct, acc.reverse) :: groupRunsAux ty [c] rest

/-- The list of maximal same-category runs of a text, in order. -/
def groupRuns : List Nat → List (CharType × List Nat)
  | [] => []
  | c :: rest => groupRunsAux (getCharacterType c) [c] rest

/-- The breakdown produced by the run-grouping loop of
`estimateDetailed`, starting from zero subtotals and the configured
overhead. -/
def computeBreakdown (cfg : FuzzyModelConfig) (t : List Nat) : Breakdown :=
  (groupRuns t).foldl (fun b r => processGroup cfg b r.1 r.2)
    { cjk := 0, latin := 0, digits := 0, symbols := 0, overhead := cfg.overhead }

/-- `FuzzyTokenEstimator.calculateAdjustmentFactor`. -/
def calculateAdjustmentFactor (japaneseRatio : ℚ) : ℚ :=
  if japaneseRatio > 0.8 then 0.6
  else if japaneseRatio = 0 then 1.0
  else if japaneseRatio < 0.2 then 0.7
  else 0.7 - ((japaneseRatio - 0.2) / 0.6) * 0.1

/-- `FuzzyTokenEstimator.calculateConfidence`. -/
def calculateConfidence (comp : TextComposition) : Confidence :=
  if comp.total < 10 then .low
  else if comp.cjkRatio > 0.9 ∨ comp.cjkRatio < 0.1 then .high
  else if (comp.symbols : ℚ) / (comp.total : ℚ) > 0.3 then .low
  else .medium

/-- Main path of `estimateDetailed` once a configuration and resolved
model name are fixed. -/
def estimateDetailedWithConfig (cfg : FuzzyModelConfig) (model : String)
    (t : List Nat) : EstimationResult :=
  if t = [] then
    { tokens := cfg.overhead,
      breakdown := { cjk := 0, latin := 0, digits := 0, symbols := 0,
                     overhead := cfg.overhead },
      textAnalysis := { totalChars := 0, cjkRatio := 0, adjustmentFactor := 1 },
      confidence := .high,
      modelUsed := model }
  else
    let composition := analyzeTextComposition t
    let breakdown := computeBreakdown cfg t
    let baseTokens := breakdown.cjk + breakdown.latin + breakdown.digits +
      breakdown.symbols + breakdown.overhead
    let baseTokens2 := baseTokens * cfg.mixedTextMultiplier
    let adjustmentFactor := calculateAdjustmentFactor composition.cjkRatio
    let finalTokens : ℚ := ((⌈baseTokens2 * adjustmentFactor⌉ : ℤ) : ℚ)
    { tokens := finalTokens,
      breakdown := breakdown,
      textAnalysis := { totalChars := strLen t,
                        cjkRatio := composition.cjkRatio,
                        adjustmentFactor := adjustmentFactor },
      confidence := calculateConfidence composition,
      modelUsed := model }

/-- `FuzzyTokenEstimator.estimateDetailed`. -/
def estimateDetailed (e : FuzzyTokenEstimator) (t : List Nat)
    (modelName : Option String) : EstimationResult :=
  let resolved := getModelConfig e modelName
  estimateDetailedWithConfig resolved.1 resolved.2 t

/-- `FuzzyTokenEstimator.estimate`. -/
def estimate (e : FuzzyTokenEstimator) (t : List Nat)
    (modelName : Option String) : ℚ :=
  (estimateDetailed e t modelName).tokens

/-- The four decimal digits of a number below 10000, most significant
first: the fractional part of `toFixed(4)`. -/
def pad4 (n : Nat) : String :=
  String.mk [Nat.digitChar (n / 1000 % 10), Nat.digitChar (n / 100 % 10),
    Nat.digitChar (n / 10 % 10), Nat.digitChar (n % 10)]

/-- JavaScript `Number.prototype.toFixed(4)` on a rational: the sign is
split off and the magnitude is rounded half-up to four decimal places. -/
def toFixed4 (q : ℚ) : String :=
  let sign := if q < 0 then "-" else ""
  let n : Nat := (⌊|q| * 10000 + 1 / 2⌋ : ℤ).toNat
  sign ++ Nat.repr (n / 10000) ++ "." ++ pad4 (n % 10000)

/-- Result record of `TokenCostCalculator.calculate`. -/
structure CostResult where
  inputCost : ℚ
  outputCost : ℚ
  totalCost : ℚ
  formattedTotal : String
  available : Bool
deriving DecidableEq, Repr

/-- `TokenCostCalculator.calculate`.  The cost provider is a partial map
from model names to per-1000-token input/output prices. -/
def TokenCostCalculator_calculate (getCost : String → Option (ℚ × ℚ))
    (model : String) (inputTokens outputTokens : ℚ) : CostResult :=
  match getCost model with
  | none =>
    { inputCost := 0, outputCost := 0, totalCost := 0,
      formattedTotal := "N/A", available := false }
  | some pricing =>
    let inputCost := inputTokens / 1000 * pricing.1
    let outputCost := outputTokens / 1000 * pricing.2
    let totalCost := inputCost + outputCost
    { inputCost := inputCost, outputCost := outputCost, totalCost := totalCost,
      formattedTotal := "$" ++ toFixed4 totalCost, available := true }

/-- Declarative run-decomposition predicate: the runs concatenate back to
the text, every run is nonempty and uniformly of its recorded category,
and adjacent runs have distinct categories (which makes each run
maximal). -/
def RunsSpec (t : List Nat) (rs : List (CharType × List Nat)) : Prop :=
  (rs.map Prod.snd).flatten = t ∧
  (∀ r ∈ rs, r.2 ≠ [] ∧ ∀ c ∈ r.2, getCharacterType c = r.1) ∧
  List.Chain' (fun a b => a.1 ≠ b.1) rs

/-- The runs of a given category, in order. -/
def runsOf (ty : CharType) (rs : List (CharType × List Nat)) : List (List Nat) :=
  (rs.filter (fun r => decide (r.1 = ty))).map Prod.snd

/-- Code-side CJK subtotal: each CJK run of UTF-16 length L (the code's
`currentGroup.length`) contributes L times cjkTokensPerChar. -/
def cjkSubtotal (cfg : FuzzyModelConfig) (rs : List (CharType × List Nat)) : ℚ :=
  ((runsOf .cjk rs).map (fun g => (strLen g : ℚ) * cfg.cjkTokensPerChar)).sum

/-- Code-side Latin subtotal: each Latin run of UTF-16 length L
contributes the ceiling of L / charsPerToken. -/
def latinSubtotal (cfg : FuzzyModelConfig) (rs : List (CharType × List Nat)) : ℚ :=
  ((runsOf .latin rs).map
    (fun g => ((⌈(strLen g : ℚ) / cfg.charsPerToken⌉ : ℤ) : ℚ))).sum

/-- Code-side digit subtotal: each digit run of UTF-16 length L
contributes the ceiling of L / numberTokensPerChar, the divisor
defaulting to 3.5. -/
def digitSubtotal (cfg : FuzzyModelConfig) (rs : List (CharType × List Nat)) : ℚ :=
  ((runsOf .digit rs).map
    (fun g => ((⌈(strLen g : ℚ) / jsOrQ cfg.numberTokensPerChar 3.5⌉ : ℤ) : ℚ))).sum

/-- Code-side symbol subtotal: each symbol run of UTF-16 length L
contributes the ceiling of L / symbolTokensPerChar (divisor defaulting
to 2.5), and each whitespace run of UTF-16 length L contributes L times
0.3 exactly when the whitespace policy is `count`. -/
def symbolSubtotal (cfg : FuzzyModelConfig) (rs : List (CharType × List Nat)) : ℚ :=
  ((runsOf .symbol rs).map
    (fun g => ((⌈(strLen g : ℚ) / jsOrQ cfg.symbolTokensPerChar 2.5⌉ : ℤ) : ℚ))).sum +
  (if cfg.whitespaceHandling = some .count then
    ((runsOf .whitespace rs).map (fun g => (strLen g : ℚ) * 0.3)).sum
  else 0)

/-- Claim-side CJK subtotal following the claim's words, with the run
length counted in characters (iterated code points), so that a
supplementary-plane character counts once instead of twice. -/
def cjkSubtotalChars (cfg : FuzzyModelConfig) (rs : List (CharType × List Nat)) : ℚ :=
  ((runsOf .cjk rs).map (fun g => (g.length : ℚ) * cfg.cjkTokensPerChar)).sum

/-- Claim-side Latin subtotal with character-counted run lengths. -/
def latinSubtotalChars (cfg : FuzzyModelConfig) (rs : List (CharType × List Nat)) : ℚ :=
  ((runsOf .latin rs).map
    (fun g => ((⌈(g.length : ℚ) / cfg.charsPerToken⌉ : ℤ) : ℚ))).sum

/-- Claim-side digit subtotal with character-counted run lengths. -/
def digitSubtotalChars (cfg : FuzzyModelConfig) (rs : List (CharType × List Nat)) : ℚ :=
  ((runsOf .digit rs).map
    (fun g => ((⌈(g.length : ℚ) / jsOrQ cfg.numberTokensPerChar 3.5⌉ : ℤ) : ℚ))).sum

/-- Claim-side symbol subtotal with character-counted run lengths. -/
def symbolSubtotalChars (cfg : FuzzyModelConfig) (rs : List (CharType × List Nat)) : ℚ :=
  ((runsOf .symbol rs).map
    (fun g => ((⌈(g.length : ℚ) / jsOrQ cfg.symbolTokensPerChar 2.5⌉ : ℤ) : ℚ))).sum +
  (if cfg.whitespaceHandling = some .count then
    ((runsOf .whitespace rs).map (fun g => (g.length : ℚ) * 0.3)).sum
  else 0)

/-- An estimator whose provider knows no model at all, so that every
lookup takes the fallback path. -/
def fallbackOnlyEstimator : FuzzyTokenEstimator :=
  { provider := fun _ => none,
    fallbackConfig := DEFAULT_FALLBACK_CONFIG,
    defaultModel := none }

/-- Epsilon-delta continuity of a rational function at every point of the
unit interval, relative to the unit interval. -/
def ContinuousOnUnitInterval (f : ℚ → ℚ) : Prop :=
  ∀ a : ℚ, 0 ≤ a → a ≤ 1 → ∀ ε : ℚ, 0 < ε → ∃ δ : ℚ, 0 < δ ∧
    ∀ x : ℚ, 0 ≤ x → x ≤ 1 → |x - a| < δ → |f x - f a| < ε

/-- Monotone non-increase of a rational function over the unit
interval. -/
def AntitoneOnUnitInterval (f : ℚ → ℚ) : Prop :=
  ∀ x y : ℚ, 0 ≤ x → x ≤ y → y ≤ 1 → f y ≤ f x

theorem countType_sum (t : List Nat) :
    t.countP (fun c => decide (getCharacterType c = .cjk)) +
    t.countP (fun c => decide (getCharacterType c = .latin)) +
    t.countP (fun c => decide (getCharacterType c = .digit)) +
    t.countP (fun c => decide (getCharacterType c = .symbol)) +
    t.countP (fun c => decide (getCharacterType c = .whitespace)) = t.length := by
  induction t with
  | nil => rfl
  | cons c t ih =>
    simp only [List.countP_cons, List.length_cons]
    cases h : getCharacterType c <;> simp [h] <;> omega

theorem length_le_strLen (t : List Nat) : t.length ≤ strLen t := by
  induction t with
  | nil => simp [strLen]
  | cons c t ih =>
    simp only [strLen, List.map_cons, List.sum_cons, List.length_cons] at *
    have hc : 1 ≤ utf16Len c := by unfold utf16Len; split <;> omega
    omega

theorem strLen_eq_length (t : List Nat) (h : ∀ c ∈ t, c < 0x10000) :
    strLen t = t.length := by
  induction t with
  | nil => rfl
  | cons c t ih =>
    simp only [strLen, List.map_cons, List.sum_cons, List.length_cons] at *
    rw [ih (fun x hx => h x (List.mem_cons_of_mem c hx))]
    have hc := h c (List.mem_cons_self c t)
    simp only [utf16Len, if_pos hc]
    omega

theorem composition_fields (t : List Nat) :
    analyzeTextComposition t =
      { cjk := t.countP (fun c => decide (getCharacterType c = .cjk)),
        latin := t.countP (fun c => decide (getCharacterType c = .latin)),
        digits := t.countP (fun c => decide (getCharacterType c = .digit)),
        symbols := t.countP (fun c => decide (getCharacterType c = .symbol)),
        whitespace := t.countP (fun c => decide (getCharacterType c = .whitespace)),
        total := strLen t,
        cjkRatio := if 0 < strLen t then
          ((t.countP (fun c => decide (getCharacterType c = .cjk)) : ℚ) / (strLen t : ℚ))
        else 0 } := rfl

/-- Claim C1: `isCJKCharacter` is claimed to return true exactly when the
code point lies in the listed CJK ranges, in particular on Extensions B
through G.  The code takes `charCodeAt(0)`, which for the Extension B
character U+20000 is the high surrogate 0xD840, so the character is
rejected even though its code point lies in a listed range. -/
theorem isCJK_extension_b_mismatch :
    isCJKCharacter 0x20000 = false ∧
    inCJKRanges 0x20000 = true ∧
    charCodeAt0 0x20000 = 0xd840 ∧
    getCharacterType 0x20000 = .symbol := by decide

/-- Claim C2 (counterexample): for the one-character text U+20000 the five
category counts sum to 1 while `total` is the UTF-16 length 2. -/
theorem composition_astral_mismatch :
    (analyzeTextComposition [0x20000]).cjk + (analyzeTextComposition [0x20000]).latin +
    (analyzeTextComposition [0x20000]).digits + (analyzeTextComposition [0x20000]).symbols +
    (analyzeTextComposition [0x20000]).whitespace = 1 ∧
    (analyzeTextComposition [0x20000]).total = 2 := by decide

/-- Claim C2 (amended): for texts of basic-multilingual-plane characters
the five category counts sum to `total`; for every text the CJK ratio
lies in the unit interval and is zero when `total` is zero. -/
theorem analyzeTextComposition_invariant (t : List Nat) :
    ((∀ c ∈ t, c < 0x10000) →
      (analyzeTextComposition t).cjk + (analyzeTextComposition t).latin +
      (analyzeTextComposition t).digits + (analyzeTextComposition t).symbols +
      (analyzeTextComposition t).whitespace = (analyzeTextComposition t).total) ∧
    0 ≤ (analyzeTextComposition t).cjkRatio ∧
    (analyzeTextComposition t).cjkRatio ≤ 1 ∧
    ((analyzeTextComposition t).total = 0 → (analyzeTextComposition t).cjkRatio = 0) := by
  rw [composition_fields]
  refine ⟨?_, ?_, ?_, ?_⟩
  · intro h
    simp only
    rw [strLen_eq_length t h]
    exact countType_sum t
  · simp only
    split
    · positivity
    · exact le_refl 0
  · simp only
    split
    · rename_i hpos
      rw [div_le_one (by exact_mod_cast hpos)]
      exact_mod_cast le_trans (List.countP_le_length _) (length_le_strLen t)
    · exact zero_le_one
  · simp only
    intro h
    rw [if_neg (by omega)]

/-- Claim C2 (witness). -/
theorem analyzeTextComposition_invariant_witness :
    (∀ c ∈ [0x3042, 0x61], c < 0x10000) ∧
    (((∀ c ∈ [0x3042, 0x61], c < 0x10000) →
      (analyzeTextComposition [0x3042, 0x61]).cjk +
      (analyzeTextComposition [0x3042, 0x61]).latin +
      (analyzeTextComposition [0x3042, 0x61]).digits +
      (analyzeTextComposition [0x3042, 0x61]).symbols +
      (analyzeTextComposition [0x3042, 0x61]).whitespace =
      (analyzeTextComposition [0x3042, 0x61]).total) ∧
    0 ≤ (analyzeTextComposition [0x3042, 0x61]).cjkRatio ∧
    (analyzeTextComposition [0x3042, 0x61]).cjkRatio ≤ 1 ∧
    ((analyzeTextComposition [0x3042, 0x61]).total = 0 →
      (analyzeTextComposition [0x3042, 0x61]).cjkRatio = 0)) :=
  ⟨by decide, analyzeTextComposition_invariant [0x3042, 0x61]⟩

theorem adj_large (r : ℚ) (h : 0.8 < r) : calculateAdjustmentFactor r = 0.6 := by
  unfold calculateAdjustmentFactor
  rw [if_pos h]

theorem adj_zero : calculateAdjustmentFactor 0 = 1 := by
  unfold calculateAdjustmentFactor
  norm_num

theorem adj_small (r : ℚ) (h0 : 0 < r) (h2 : r < 0.2) :
    calculateAdjustmentFactor r = 0.7 := by
  unfold calculateAdjustmentFactor
  rw [if_neg (by linarith), if_neg (by linarith), if_pos h2]

theorem adj_mid (r : ℚ) (h1 : 0.2 ≤ r) (h2 : r ≤ 0.8) :
    calculateAdjustmentFactor r = 0.7 - ((r - 0.2) / 0.6) * 0.1 := by
  unfold calculateAdjustmentFactor
  rw [if_neg (by linarith), if_neg (by linarith), if_neg (by linarith)]

theorem adj_clamp (r : ℚ) (h : 0 < r) :
    calculateAdjustmentFactor r = 0.7 - (max 0.2 (min 0.8 r) - 0.2) / 6 := by
  rcases le_or_lt r 0.8 with h8 | h8
  · rcases lt_or_le r 0.2 with h2 | h2
    · rw [adj_small r h h2, min_eq_right (by linarith), max_eq_left (by linarith)]
      norm_num
    · rw [adj_mid r h2 h8, min_eq_right h8, max_eq_right h2]
      ring
  · rw [adj_large r h8, min_eq_left (by linarith), max_eq_right (by norm_num)]
    norm_num

/-- Claim C4: the adjustment factor follows the stated piecewise rule on
the unit interval. -/
theorem adjustmentFactor_piecewise (r : ℚ) (_h0 : 0 ≤ r) (_h1 : r ≤ 1) :
    (0.8 < r → calculateAdjustmentFactor r = 0.6) ∧
    (r = 0 → calculateAdjustmentFactor r = 1) ∧
    (0 < r → r < 0.2 → calculateAdjustmentFactor r = 0.7) ∧
    (0.2 ≤ r → r ≤ 0.8 →
      calculateAdjustmentFactor r = 0.7 - ((r - 0.2) / 0.6) * 0.1) :=
  ⟨fun h => adj_large r h,
   fun h => h ▸ adj_zero,
   fun ha hb => adj_small r ha hb,
   fun ha hb => adj_mid r ha hb⟩

/-- Claim C4 (witness). -/
theorem adjustmentFactor_piecewise_witness :
    (0 ≤ (1 / 2 : ℚ)) ∧ ((1 / 2 : ℚ) ≤ 1) ∧
    ((0.8 < (1 / 2 : ℚ) → calculateAdjustmentFactor (1 / 2) = 0.6) ∧
     ((1 / 2 : ℚ) = 0 → calculateAdjustmentFactor (1 / 2) = 1) ∧
     (0 < (1 / 2 : ℚ) → (1 / 2 : ℚ) < 0.2 → calculateAdjustmentFactor (1 / 2) = 0.7) ∧
     (0.2 ≤ (1 / 2 : ℚ) → (1 / 2 : ℚ) ≤ 0.8 →
       calculateAdjustmentFactor (1 / 2) = 0.7 - (((1 / 2 : ℚ) - 0.2) / 0.6) * 0.1)) :=
  ⟨by norm_num, by norm_num,
   adjustmentFactor_piecewise (1 / 2) (by norm_num) (by norm_num)⟩

/-- Claim C5 (counterexample): the adjustment factor is not continuous on
the unit interval: it is 1 at ratio 0 but 0.7 at every positive ratio
below 0.2, a jump of 0.3 at the concrete point 0. -/
theorem adjustmentFactor_claim_false :
    ¬ (ContinuousOnUnitInterval calculateAdjustmentFactor ∧
       AntitoneOnUnitInterval calculateAdjustmentFactor ∧
       calculateAdjustmentFactor 0 = 1 ∧
       (∀ r : ℚ, 0 < r → r < 0.2 → calculateAdjustmentFactor r = 0.7) ∧
       calculateAdjustmentFactor 0.8 = 0.6 ∧
       calculateAdjustmentFactor 1 = 0.6) := by
  rintro ⟨hc, -, -, -, -, -⟩
  obtain ⟨δ, hδ, hx⟩ := hc 0 le_rfl (by norm_num) (3 / 10) (by norm_num)
  have hpos : 0 < min (δ / 2) (1 / 10) := lt_min (by linarith) (by norm_num)
  have hle : min (δ / 2) (1 / 10) ≤ 1 / 10 := min_le_right _ _
  have hdist : |min (δ / 2) (1 / 10) - 0| < δ := by
    rw [sub_zero, abs_of_pos hpos]
    calc min (δ / 2) (1 / 10) ≤ δ / 2 := min_le_left _ _
    _ < δ := by linarith
  have hval := hx (min (δ / 2) (1 / 10)) (le_of_lt hpos) (by linarith) hdist
  rw [adj_small (min (δ / 2) (1 / 10)) hpos (by linarith), adj_zero] at hval
  norm_num at hval
  rw [abs_of_pos (by norm_num)] at hval
  exact absurd hval (lt_irrefl _)

/-- Claim C5 (amended): the adjustment factor is monotonically
non-increasing on the unit interval and continuous at every positive
point of it (relative to the positive part of the interval); its values
are 1 at ratio 0, 0.7 on all of (0, 0.2) — hence the left limit at 0.2
is 0.7 — and 0.6 at 0.8 and at 1.  At ratio 0 itself the function jumps
from 1 to 0.7 and is discontinuous. -/
theorem adjustmentFactor_shape :
    AntitoneOnUnitInterval calculateAdjustmentFactor ∧
    (∀ a : ℚ, 0 < a → a ≤ 1 → ∀ ε : ℚ, 0 < ε → ∃ δ : ℚ, 0 < δ ∧
      ∀ x : ℚ, 0 < x → x ≤ 1 → |x - a| < δ →
        |calculateAdjustmentFactor x - calculateAdjustmentFactor a| < ε) ∧
    calculateAdjustmentFactor 0 = 1 ∧
    (∀ r : ℚ, 0 < r → r < 0.2 → calculateAdjustmentFactor r = 0.7) ∧
    calculateAdjustmentFactor 0.8 = 0.6 ∧
    calculateAdjustmentFactor 1 = 0.6 := by
  refine ⟨?_, ?_, adj_zero, fun r h1 h2 => adj_small r h1 h2,
    by rw [adj_mid 0.8 (by norm_num) (by norm_num)]; norm_num,
    adj_large 1 (by norm_num)⟩
  · intro x y hx hxy hy1
    rcases eq_or_lt_of_le hx with hx0 | hx0
    · rw [← hx0, adj_zero]
      rcases eq_or_lt_of_le (hx0 ▸ hxy : (0 : ℚ) ≤ y) with hy0 | hy0
      · rw [← hy0, adj_zero]
      · rw [adj_clamp y hy0]
        have h2 : (0.2 : ℚ) ≤ max 0.2 (min 0.8 y) := le_max_left _ _
        have : (0 : ℚ) ≤ (max 0.2 (min 0.8 y) - 0.2) / 6 :=
          div_nonneg (by linarith) (by norm_num)
        linarith
    · rw [adj_clamp x hx0, adj_clamp y (lt_of_lt_of_le hx0 hxy)]
      have hmm : max 0.2 (min 0.8 x) ≤ max 0.2 (min 0.8 y) :=
        max_le_max (le_refl _) (min_le_min (le_refl _) hxy)
      have : (max 0.2 (min 0.8 x) - 0.2) / 6 ≤ (max 0.2 (min 0.8 y) - 0.2) / 6 := by
        apply div_le_div_of_nonneg_right _ (by norm_num)
        linarith
      linarith
  · intro a ha ha1 ε hε
    refine ⟨6 * ε, by linarith, ?_⟩
    intro x hx hx1 hdist
    rw [adj_clamp x hx, adj_clamp a ha]
    have key : (0.7 : ℚ) - (max 0.2 (min 0.8 x) - 0.2) / 6 -
        (0.7 - (max 0.2 (min 0.8 a) - 0.2) / 6) =
        (max 0.2 (min 0.8 a) - max 0.2 (min 0.8 x)) / 6 := by ring
    rw [key, abs_div, abs_of_pos (by norm_num : (0 : ℚ) < 6)]
    rw [div_lt_iff₀ (by norm_num : (0 : ℚ) < 6)]
    have hmax : |max 0.2 (min 0.8 a) - max 0.2 (min 0.8 x)| ≤
        |min 0.8 a - min 0.8 x| := by
      rw [max_comm 0.2 (min 0.8 a), max_comm 0.2 (min 0.8 x)]
      exact abs_max_sub_max_le_abs _ _ _
    have hmin : |min 0.8 a - min 0.8 x| ≤ |a - x| := by
      have := abs_min_sub_min_le_max (0.8 : ℚ) a 0.8 x
      simpa using this
    have haxd : |a - x| < 6 * ε := by
      rw [abs_sub_comm] at hdist
      linarith
    linarith

/-- Claim C6: on empty text the estimator returns exactly the resolved
configuration's overhead as token total (no multiplier or adjustment
applied), an all-zero breakdown apart from the overhead entry, an
all-zero composition with adjustment factor 1, confidence high, and the
resolved model name. -/
theorem estimateDetailed_empty (e : FuzzyTokenEstimator) (name : Option String) :
    estimateDetailed e [] name =
      { tokens := (getModelConfig e name).1.overhead,
        breakdown := { cjk := 0, latin := 0, digits := 0, symbols := 0,
                       overhead := (getModelConfig e name).1.overhead },
        textAnalysis := { totalChars := 0, cjkRatio := 0, adjustmentFactor := 1 },
        confidence := .high,
        modelUsed := (getModelConfig e name).2 } := rfl

theorem estimateDetailedWithConfig_modelUsed (cfg : FuzzyModelConfig)
    (model : String) (t : List Nat) :
    (estimateDetailedWithConfig cfg model t).modelUsed = model := by
  unfold estimateDetailedWithConfig
  split <;> rfl

/-- Claim C7 (counterexample): on the empty text the composition's total
is 0, below 10, so the claimed priority rule yields low, yet
`estimateDetailed` short-circuits to high. -/
theorem confidence_empty_mismatch :
    (estimateDetailed fallbackOnlyEstimator [] none).confidence = Confidence.high ∧
    (analyzeTextComposition []).total < 10 ∧
    calculateConfidence (analyzeTextComposition []) = Confidence.low := by decide

/-- Claim C7 (amended): for every non-empty text the confidence label of
`estimateDetailed` follows the fixed priority rule over the composition:
below 10 characters low, then extreme CJK ratios high, then symbol-heavy
text low, otherwise medium. -/
theorem confidence_priority (e : FuzzyTokenEstimator) (t : List Nat)
    (name : Option String) (h : t ≠ []) :
    (estimateDetailed e t name).confidence =
      (if (analyzeTextComposition t).total < 10 then Confidence.low
       else if (analyzeTextComposition t).cjkRatio > 0.9 ∨
               (analyzeTextComposition t).cjkRatio < 0.1 then Confidence.high
       else if ((analyzeTextComposition t).symbols : ℚ) /
               ((analyzeTextComposition t).total : ℚ) > 0.3 then Confidence.low
       else Confidence.medium) := by
  have h1 : estimateDetailed e t name =
      estimateDetailedWithConfig (getModelConfig e name).1 (getModelConfig e name).2 t := rfl
  rw [h1]
  unfold estimateDetailedWithConfig
  rw [if_neg h]
  rfl

/-- Claim C7 (witness). -/
theorem confidence_priority_witness :
    ([97] : List Nat) ≠ [] ∧
    (estimateDetailed fallbackOnlyEstimator [97] none).confidence =
      (if (analyzeTextComposition [97]).total < 10 then Confidence.low
       else if (analyzeTextComposition [97]).cjkRatio > 0.9 ∨
               (analyzeTextComposition [97]).cjkRatio < 0.1 then Confidence.high
       else if ((analyzeTextComposition [97]).symbols : ℚ) /
               ((analyzeTextComposition [97]).total : ℚ) > 0.3 then Confidence.low
       else Confidence.medium) :=
  ⟨by decide, confidence_priority fallbackOnlyEstimator [97] none (by decide)⟩

/-- Claim C8: the estimation path never fails: the model name resolves to
the requested name, else the default, else the literal unknown; the
result is exactly the estimation under the provider's configuration for
that name or, when absent, under the fallback configuration; the
returned `modelUsed` is the resolved name; and the hardcoded fallback
holds the documented values. -/
theorem estimateDetailed_no_throw (e : FuzzyTokenEstimator) (t : List Nat)
    (name : Option String) :
    (estimateDetailed e t name).modelUsed = resolveModelName name e.defaultModel ∧
    estimateDetailed e t name =
      estimateDetailedWithConfig
        ((e.provider (resolveModelName name e.defaultModel)).getD e.fallbackConfig)
        (resolveModelName name e.defaultModel) t ∧
    (e.provider (resolveModelName name e.defaultModel) = none →
      (getModelConfig e name).1 = e.fallbackConfig) ∧
    DEFAULT_FALLBACK_CONFIG =
      { charsPerToken := 4, overhead := 10, cjkTokensPerChar := 1.5,
        mixedTextMultiplier := 1.05, numberTokensPerChar := some 3.5,
        symbolTokensPerChar := some 2.5,
        whitespaceHandling := some .compress } := by
  refine ⟨estimateDetailedWithConfig_modelUsed _ _ _, rfl, ?_, rfl⟩
  intro h
  unfold getModelConfig
  simp [h]

/-- Claim C8 (witness). -/
theorem estimateDetailed_no_throw_witness :
    fallbackOnlyEstimator.provider
      (resolveModelName (some "gpt-9") fallbackOnlyEstimator.defaultModel) = none ∧
    ((estimateDetailed fallbackOnlyEstimator [97] (some "gpt-9")).modelUsed =
      resolveModelName (some "gpt-9") fallbackOnlyEstimator.defaultModel ∧
    estimateDetailed fallbackOnlyEstimator [97] (some "gpt-9") =
      estimateDetailedWithConfig
        ((fallbackOnlyEstimator.provider
          (resolveModelName (some "gpt-9") fallbackOnlyEstimator.defaultModel)).getD
          fallbackOnlyEstimator.fallbackConfig)
        (resolveModelName (some "gpt-9") fallbackOnlyEstimator.defaultModel) [97] ∧
    (fallbackOnlyEstimator.provider
      (resolveModelName (some "gpt-9") fallbackOnlyEstimator.defaultModel) = none →
      (getModelConfig fallbackOnlyEstimator (some "gpt-9")).1 =
        fallbackOnlyEstimator.fallbackConfig) ∧
    DEFAULT_FALLBACK_CONFIG =
      { charsPerToken := 4, overhead := 10, cjkTokensPerChar := 1.5,
        mixedTextMultiplier := 1.05, numberTokensPerChar := some 3.5,
        symbolTokensPerChar := some 2.5,
        whitespaceHandling := some .compress }) :=
  ⟨rfl, estimateDetailed_no_throw fallbackOnlyEstimator [97] (some "gpt-9")⟩

theorem jsOrStr_ne_empty (o : Option String) (d : String) (hd : d ≠ "") :
    jsOrStr o d ≠ "" := by
  cases o with
  | none => exact hd
  | some s =>
    show (if s = "" then d else s) ≠ ""
    by_cases hs : s = ""
    · rw [if_pos hs]; exact hd
    · rw [if_neg hs]; exact hs

/-- Claim C10: passing the empty string as model name behaves exactly as
passing no model name, and the returned `modelUsed` is never the empty
string. -/
theorem emptyModelName_as_missing (e : FuzzyTokenEstimator) (t : List Nat) :
    estimateDetailed e t (some "") = estimateDetailed e t none ∧
    (estimateDetailed e t (some "")).modelUsed ≠ "" := by
  have hres : resolveModelName (some "") e.defaultModel =
      resolveModelName none e.defaultModel := by
    simp [resolveModelName, jsOrStr]
  constructor
  · have h1 : estimateDetailed e t (some "") =
        estimateDetailedWithConfig
          ((e.provider (resolveModelName (some "") e.defaultModel)).getD e.fallbackConfig)
          (resolveModelName (some "") e.defaultModel) t := rfl
    have h2 : estimateDetailed e t none =
        estimateDetailedWithConfig
          ((e.provider (resolveModelName none e.defaultModel)).getD e.fallbackConfig)
          (resolveModelName none e.defaultModel) t := rfl
    rw [h1, h2, hres]
  · have h1 : (estimateDetailed e t (some "")).modelUsed =
        resolveModelName (some "") e.defaultModel :=
      estimateDetailedWithConfig_modelUsed _ _ _
    rw [h1]
    exact jsOrStr_ne_empty _ _ (jsOrStr_ne_empty _ _ (by decide))

/-- Claim C10 (witness). -/
theorem emptyModelName_as_missing_witness :
    estimateDetailed fallbackOnlyEstimator [97] (some "") =
      estimateDetailed fallbackOnlyEstimator [97] none ∧
    (estimateDetailed fallbackOnlyEstimator [97] (some "")).modelUsed ≠ "" :=
  emptyModelName_as_missing fallbackOnlyEstimator [97]

theorem pad4_length (n : Nat) : (pad4 n).length = 4 := rfl

/-- Claim C9: the cost calculator never fails: an absent pricing entry
yields the zeroed, not-available, N/A-formatted result; a present entry
yields the per-1000-token products, their sum, availability, and the
total formatted with a dollar prefix; and every formatted rational has
an integer part, a dot, and exactly four fractional digits. -/
theorem calculate_no_throw (getCost : String → Option (ℚ × ℚ)) (model : String)
    (inputTokens outputTokens : ℚ) :
    (getCost model = none →
      TokenCostCalculator_calculate getCost model inputTokens outputTokens =
        { inputCost := 0, outputCost := 0, totalCost := 0,
          formattedTotal := "N/A", available := false }) ∧
    (∀ price : ℚ × ℚ, getCost model = some price →
      TokenCostCalculator_calculate getCost model inputTokens outputTokens =
        { inputCost := inputTokens / 1000 * price.1,
          outputCost := outputTokens / 1000 * price.2,
          totalCost := inputTokens / 1000 * price.1 + outputTokens / 1000 * price.2,
          formattedTotal := "$" ++ toFixed4
            (inputTokens / 1000 * price.1 + outputTokens / 1000 * price.2),
          available := true }) ∧
    (∀ q : ℚ, ∃ frac : String, frac.length = 4 ∧
      toFixed4 q = (if q < 0 then "-" else "") ++
        Nat.repr ((⌊|q| * 10000 + 1 / 2⌋ : ℤ).toNat / 10000) ++ "." ++ frac) := by
  refine ⟨?_, ?_, ?_⟩
  · intro h
    unfold TokenCostCalculator_calculate
    rw [h]
  · intro price h
    unfold TokenCostCalculator_calculate
    rw [h]
  · intro q
    exact ⟨pad4 ((⌊|q| * 10000 + 1 / 2⌋ : ℤ).toNat % 10000), pad4_length _, rfl⟩

/-- Claim C9 (witness): the worked example of the specification. -/
theorem calculate_no_throw_witness :
    (fun m => if m = "gpt-3.5-turbo" then
        some ((3 / 2000 : ℚ), (1 / 500 : ℚ)) else none) "gpt-3.5-turbo" =
      some ((3 / 2000 : ℚ), (1 / 500 : ℚ)) ∧
    TokenCostCalculator_calculate
      (fun m => if m = "gpt-3.5-turbo" then
        some ((3 / 2000 : ℚ), (1 / 500 : ℚ)) else none)
      "gpt-3.5-turbo" 1000 500 =
      { inputCost := 3 / 2000, outputCost := 1 / 1000, totalCost := 1 / 400,
        formattedTotal := "$0.0025", available := true } :=
  ⟨rfl, by
    rw [(calculate_no_throw
      (fun m => if m = "gpt-3.5-turbo" then
        some ((3 / 2000 : ℚ), (1 / 500 : ℚ)) else none)
      "gpt-3.5-turbo" 1000 500).2.1 (3 / 2000, 1 / 500) rfl]
    have h1 : (1000 : ℚ) / 1000 * (3 / 2000 : ℚ) = 3 / 2000 := by norm_num
    have h2 : (500 : ℚ) / 1000 * (1 / 500 : ℚ) = 1 / 1000 := by norm_num
    have h3 : (3 / 2000 : ℚ) + 1 / 1000 = 1 / 400 := by norm_num
    rw [h1, h2, h3]
    have h4 : toFixed4 (1 / 400) = "0.0025" := by
      unfold toFixed4
      rw [if_neg (by norm_num : ¬ ((1 / 400 : ℚ) < 0)),
        abs_of_pos (by norm_num : (0 : ℚ) < 1 / 400),
        show (⌊(1 / 400 : ℚ) * 10000 + 1 / 2⌋ : ℤ) = 25 by norm_num]
      rfl
    rw [h4]
    rfl⟩

theorem groupRunsAux_spec (rest : List Nat) :
    ∀ (ct : CharType) (acc : List Nat), acc ≠ [] →
      (∀ c ∈ acc, getCharacterType c = ct) →
      ((groupRunsAux ct acc rest).map Prod.snd).flatten = acc.reverse ++ rest ∧
      (∀ r ∈ groupRunsAux ct acc rest, r.2 ≠ [] ∧ ∀ c ∈ r.2, getCharacterType c = r.1) ∧
      List.Chain' (fun a b => a.1 ≠ b.1) (groupRunsAux ct acc rest) ∧
      ∃ p l, groupRunsAux ct acc rest = p :: l ∧ p.1 = ct := by
  induction rest with
  | nil =>
    intro ct acc hne hty
    refine ⟨by simp [groupRunsAux], ?_, by simp [groupRunsAux],
      ⟨(ct, acc.reverse), [], rfl, rfl⟩⟩
    intro r hr
    simp only [groupRunsAux, List.mem_singleton] at hr
    subst hr
    exact ⟨by simpa using hne, fun c hc => hty c (List.mem_reverse.mp hc)⟩
  | cons c rest ih =>
    intro ct acc hne hty
    by_cases hc : getCharacterType c = ct
    · have hstep : groupRunsAux ct acc (c :: rest) = groupRunsAux ct (c :: acc) rest := by
        simp [groupRunsAux, hc]
      have hrec := ih ct (c :: acc) (by simp) (by
        intro x hx
        rcases List.mem_cons.mp hx with h | h
        · rw [h]; exact hc
        · exact hty x h)
      rw [hstep]
      refine ⟨?_, hrec.2.1, hrec.2.2.1, hrec.2.2.2⟩
      rw [hrec.1]
      simp
    · have hstep : groupRunsAux ct acc (c :: rest) =
          (ct, acc.reverse) :: groupRunsAux (getCharacterType c) [c] rest := by
        simp [groupRunsAux, hc]
      obtain ⟨hflat, huni, hchain, p, l, heq, hp⟩ :=
        ih (getCharacterType c) [c] (by simp) (by simp)
      rw [hstep]
      refine ⟨?_, ?_, ?_, ⟨(ct, acc.reverse), _, rfl, rfl⟩⟩
      · simp only [List.map_cons, List.flatten_cons, hflat]
        simp
      · intro r hr
        rcases List.mem_cons.mp hr with h | h
        · rw [h]
          exact ⟨by simpa using hne, fun x hx => hty x (List.mem_reverse.mp hx)⟩
        · exact huni r h
      · rw [heq]
        exact List.Chain'.cons (by rw [hp]; exact fun hct => hc hct.symm)
          (heq ▸ hchain)

theorem groupRuns_runsSpec (t : List Nat) : RunsSpec t (groupRuns t) := by
  cases t with
  | nil => exact ⟨rfl, by simp [groupRuns], List.chain'_nil⟩
  | cons c rest =>
    obtain ⟨hflat, huni, hchain, -⟩ :=
      groupRunsAux_spec rest (getCharacterType c) [c] (by simp) (by simp)
    exact ⟨by simpa using hflat, huni, hchain⟩

theorem runsOf_cons (ty ty' : CharType) (g : List Nat)
    (rs : List (CharType × List Nat)) :
    runsOf ty ((ty', g) :: rs) =
      if ty' = ty then g :: runsOf ty rs else runsOf ty rs := by
  by_cases h : ty' = ty <;> simp [runsOf, List.filter_cons, h]

theorem cjkSubtotal_cons (cfg : FuzzyModelConfig) (ty : CharType)
    (g : List Nat) (rs : List (CharType × List Nat)) :
    cjkSubtotal cfg ((ty, g) :: rs) =
      (if ty = .cjk then (strLen g : ℚ) * cfg.cjkTokensPerChar else 0) +
      cjkSubtotal cfg rs := by
  by_cases h : ty = .cjk <;> simp [cjkSubtotal, runsOf_cons, h]

theorem latinSubtotal_cons (cfg : FuzzyModelConfig) (ty : CharType)
    (g : List Nat) (rs : List (CharType × List Nat)) :
    latinSubtotal cfg ((ty, g) :: rs) =
      (if ty = .latin then
        ((⌈(strLen g : ℚ) / cfg.charsPerToken⌉ : ℤ) : ℚ) else 0) +
      latinSubtotal cfg rs := by
  by_cases h : ty = .latin <;> simp [latinSubtotal, runsOf_cons, h]

theorem digitSubtotal_cons (cfg : FuzzyModelConfig) (ty : CharType)
    (g : List Nat) (rs : List (CharType × List Nat)) :
    digitSubtotal cfg ((ty, g) :: rs) =
      (if ty = .digit then
        ((⌈(strLen g : ℚ) / jsOrQ cfg.numberTokensPerChar 3.5⌉ : ℤ) : ℚ) else 0) +
      digitSubtotal cfg rs := by
  by_cases h : ty = .digit <;> simp [digitSubtotal, runsOf_cons, h]

theorem symbolSubtotal_cons (cfg : FuzzyModelConfig) (ty : CharType)
    (g : List Nat) (rs : List (CharType × List Nat)) :
    symbolSubtotal cfg ((ty, g) :: rs) =
      (if ty = .symbol then
        ((⌈(strLen g : ℚ) / jsOrQ cfg.symbolTokensPerChar 2.5⌉ : ℤ) : ℚ) else 0) +
      (if ty = .whitespace ∧ cfg.whitespaceHandling = some .count then
        (strLen g : ℚ) * 0.3 else 0) +
      symbolSubtotal cfg rs := by
  unfold symbolSubtotal
  cases ty <;>
    by_cases hw : cfg.whitespaceHandling = some WhitespaceHandling.count <;>
    (try simp [runsOf_cons, hw, List.map_cons, List.sum_cons]) <;>
    (try ring)

theorem foldl_cjk (cfg : FuzzyModelConfig) (rs : List (CharType × List Nat)) :
    ∀ b : Breakdown,
      (rs.foldl (fun b r => processGroup cfg b r.1 r.2) b).cjk =
        b.cjk + cjkSubtotal cfg rs := by
  induction rs with
  | nil => intro b; simp [cjkSubtotal, runsOf]
  | cons r rs ih =>
    intro b
    obtain ⟨ty, g⟩ := r
    simp only [List.foldl_cons]
    rw [ih, cjkSubtotal_cons]
    cases ty <;>
      by_cases hw : cfg.whitespaceHandling = some WhitespaceHandling.count <;>
      (try simp [processGroup, hw]) <;>
      (try ring)

theorem foldl_latin (cfg : FuzzyModelConfig) (rs : List (CharType × List Nat)) :
    ∀ b : Breakdown,
      (rs.foldl (fun b r => processGroup cfg b r.1 r.2) b).latin =
        b.latin + latinSubtotal cfg rs := by
  induction rs with
  | nil => intro b; simp [latinSubtotal, runsOf]
  | cons r rs ih =>
    intro b
    obtain ⟨ty, g⟩ := r
    simp only [List.foldl_cons]
    rw [ih, latinSubtotal_cons]
    cases ty <;>
      by_cases hw : cfg.whitespaceHandling = some WhitespaceHandling.count <;>
      (try simp [processGroup, hw]) <;>
      (try ring)

theorem foldl_digits (cfg : FuzzyModelConfig) (rs : List (CharType × List Nat)) :
    ∀ b : Breakdown,
      (rs.foldl (fun b r => processGroup cfg b r.1 r.2) b).digits =
        b.digits + digitSubtotal cfg rs := by
  induction rs with
  | nil => intro b; simp [digitSubtotal, runsOf]
  | cons r rs ih =>
    intro b
    obtain ⟨ty, g⟩ := r
    simp only [List.foldl_cons]
    rw [ih, digitSubtotal_cons]
    cases ty <;>
      by_cases hw : cfg.whitespaceHandling = some WhitespaceHandling.count <;>
      (try simp [processGroup, hw]) <;>
      (try ring)

theorem foldl_symbols (cfg : FuzzyModelConfig) (rs : List (CharType × List Nat)) :
    ∀ b : Breakdown,
      (rs.foldl (fun b r => processGroup cfg b r.1 r.2) b).symbols =
        b.symbols + symbolSubtotal cfg rs := by
  induction rs with
  | nil => intro b; simp [symbolSubtotal, runsOf]
  | cons r rs ih =>
    intro b
    obtain ⟨ty, g⟩ := r
    simp only [List.foldl_cons]
    rw [ih, symbolSubtotal_cons]
    cases ty <;>
      by_cases hw : cfg.whitespaceHandling = some WhitespaceHandling.count <;>
      (try simp [processGroup, hw]) <;>
      (try ring)

theorem foldl_overhead (cfg : FuzzyModelConfig) (rs : List (CharType × List Nat)) :
    ∀ b : Breakdown,
      (rs.foldl (fun b r => processGroup cfg b r.1 r.2) b).overhead =
        b.overhead := by
  induction rs with
  | nil => intro b; rfl
  | cons r rs ih =>
    intro b
    obtain ⟨ty, g⟩ := r
    simp only [List.foldl_cons]
    rw [ih]
    cases ty <;>
      by_cases hw : cfg.whitespaceHandling = some WhitespaceHandling.count <;>
      simp [processGroup, hw]

theorem computeBreakdown_fields (cfg : FuzzyModelConfig) (t : List Nat) :
    (computeBreakdown cfg t).cjk = cjkSubtotal cfg (groupRuns t) ∧
    (computeBreakdown cfg t).latin = latinSubtotal cfg (groupRuns t) ∧
    (computeBreakdown cfg t).digits = digitSubtotal cfg (groupRuns t) ∧
    (computeBreakdown cfg t).symbols = symbolSubtotal cfg (groupRuns t) ∧
    (computeBreakdown cfg t).overhead = cfg.overhead := by
  unfold computeBreakdown
  refine ⟨?_, ?_, ?_, ?_, ?_⟩
  · rw [foldl_cjk]; simp
  · rw [foldl_latin]; simp
  · rw [foldl_digits]; simp
  · rw [foldl_symbols]; simp
  · rw [foldl_overhead]

/-- Claim C3 (amended): on non-empty text the estimator partitions the
text into the maximal same-category runs (`RunsSpec`) and accumulates
per run the stated per-category contributions, the run length L being
the UTF-16 code-unit length of the run (a supplementary-plane character
counts 2) — CJK L times cjkTokensPerChar, Latin ceiling of L over
charsPerToken, digits ceiling over numberTokensPerChar defaulting to
3.5, symbols ceiling over symbolTokensPerChar defaulting to 2.5,
whitespace L times 0.3 into the symbol subtotal only under the `count`
policy — and returns the ceiling of the subtotal sum plus overhead,
times the unconditional mixed-text multiplier, times the CJK-ratio
adjustment factor. -/
theorem estimateDetailed_run_accumulation (e : FuzzyTokenEstimator)
    (t : List Nat) (name : Option String) (h : t ≠ []) :
    RunsSpec t (groupRuns t) ∧
    (estimateDetailed e t name).tokens =
      ((⌈(cjkSubtotal (getModelConfig e name).1 (groupRuns t) +
          latinSubtotal (getModelConfig e name).1 (groupRuns t) +
          digitSubtotal (getModelConfig e name).1 (groupRuns t) +
          symbolSubtotal (getModelConfig e name).1 (groupRuns t) +
          (getModelConfig e name).1.overhead) *
         (getModelConfig e name).1.mixedTextMultiplier *
         calculateAdjustmentFactor (analyzeTextComposition t).cjkRatio⌉ : ℤ) : ℚ) := by
  refine ⟨groupRuns_runsSpec t, ?_⟩
  have h1 : (estimateDetailed e t name).tokens =
      (estimateDetailedWithConfig (getModelConfig e name).1
        (getModelConfig e name).2 t).tokens := rfl
  rw [h1]
  unfold estimateDetailedWithConfig
  rw [if_neg h]
  obtain ⟨hc, hl, hd, hs, ho⟩ :=
    computeBreakdown_fields (getModelConfig e name).1 t
  show ((⌈((computeBreakdown (getModelConfig e name).1 t).cjk +
      (computeBreakdown (getModelConfig e name).1 t).latin +
      (computeBreakdown (getModelConfig e name).1 t).digits +
      (computeBreakdown (getModelConfig e name).1 t).symbols +
      (computeBreakdown (getModelConfig e name).1 t).overhead) *
      (getModelConfig e name).1.mixedTextMultiplier *
      calculateAdjustmentFactor (analyzeTextComposition t).cjkRatio⌉ : ℤ) : ℚ) = _
  rw [hc, hl, hd, hs, ho]

/-- Claim C3 (witness). -/
theorem estimateDetailed_run_accumulation_witness :
    ([97] : List Nat) ≠ [] ∧
    (RunsSpec [97] (groupRuns [97]) ∧
    (estimateDetailed fallbackOnlyEstimator [97] none).tokens =
      ((⌈(cjkSubtotal (getModelConfig fallbackOnlyEstimator none).1 (groupRuns [97]) +
          latinSubtotal (getModelConfig fallbackOnlyEstimator none).1 (groupRuns [97]) +
          digitSubtotal (getModelConfig fallbackOnlyEstimator none).1 (groupRuns [97]) +
          symbolSubtotal (getModelConfig fallbackOnlyEstimator none).1 (groupRuns [97]) +
          (getModelConfig fallbackOnlyEstimator none).1.overhead) *
         (getModelConfig fallbackOnlyEstimator none).1.mixedTextMultiplier *
         calculateAdjustmentFactor (analyzeTextComposition [97]).cjkRatio⌉ : ℤ) : ℚ)) :=
  ⟨by decide,
   estimateDetailed_run_accumulation fallbackOnlyEstimator [97] none (by decide)⟩

/-- Claim C3 (counterexample): on the text of the two supplementary-plane
symbol characters U+20000 U+20001 — a single symbol run — the code uses
the UTF-16 run length 4 (ceiling 4 / 2.5 = 2, hence 13 tokens under the
default fallback configuration), while the claim's rule with the run
length counted in characters uses 2 (ceiling 2 / 2.5 = 1, hence 12
tokens), so the claim as stated fails here. -/
theorem run_accumulation_astral_mismatch :
    (estimateDetailed fallbackOnlyEstimator [0x20000, 0x20001] none).tokens = 13 ∧
    ((⌈(cjkSubtotalChars DEFAULT_FALLBACK_CONFIG (groupRuns [0x20000, 0x20001]) +
        latinSubtotalChars DEFAULT_FALLBACK_CONFIG (groupRuns [0x20000, 0x20001]) +
        digitSubtotalChars DEFAULT_FALLBACK_CONFIG (groupRuns [0x20000, 0x20001]) +
        symbolSubtotalChars DEFAULT_FALLBACK_CONFIG (groupRuns [0x20000, 0x20001]) +
        DEFAULT_FALLBACK_CONFIG.overhead) *
        DEFAULT_FALLBACK_CONFIG.mixedTextMultiplier *
        calculateAdjustmentFactor
          (analyzeTextComposition [0x20000, 0x20001]).cjkRatio⌉ : ℤ) : ℚ) = 12 := by
  have hg : groupRuns ([0x20000, 0x20001] : List Nat) =
      [(CharType.symbol, [0x20000, 0x20001])] := by decide
  have hcnt : ([0x20000, 0x20001] : List Nat).countP
      (fun c => decide (getCharacterType c = .cjk)) = 0 := by decide
  have hlen : strLen [0x20000, 0x20001] = 4 := by decide
  have hratio : (analyzeTextComposition [0x20000, 0x20001]).cjkRatio = 0 := by
    rw [composition_fields]
    show (if 0 < strLen [0x20000, 0x20001] then
        ((([0x20000, 0x20001] : List Nat).countP
          (fun c => decide (getCharacterType c = .cjk)) : ℚ) /
          (strLen [0x20000, 0x20001] : ℚ)) else 0) = 0
    rw [hcnt, hlen]
    norm_num
  have hov : DEFAULT_FALLBACK_CONFIG.overhead = 10 := by
    norm_num [DEFAULT_FALLBACK_CONFIG]
  have hmul : DEFAULT_FALLBACK_CONFIG.mixedTextMultiplier = 21 / 20 := by
    norm_num [DEFAULT_FALLBACK_CONFIG]
  constructor
  · have h1 : (estimateDetailed fallbackOnlyEstimator [0x20000, 0x20001] none).tokens =
        (estimateDetailedWithConfig DEFAULT_FALLBACK_CONFIG "unknown"
          [0x20000, 0x20001]).tokens := rfl
    rw [h1]
    unfold estimateDetailedWithConfig
    rw [if_neg (by decide : ¬ (([0x20000, 0x20001] : List Nat) = []))]
    obtain ⟨hc, hl, hd, hs, ho⟩ :=
      computeBreakdown_fields DEFAULT_FALLBACK_CONFIG [0x20000, 0x20001]
    show ((⌈((computeBreakdown DEFAULT_FALLBACK_CONFIG [0x20000, 0x20001]).cjk +
        (computeBreakdown DEFAULT_FALLBACK_CONFIG [0x20000, 0x20001]).latin +
        (computeBreakdown DEFAULT_FALLBACK_CONFIG [0x20000, 0x20001]).digits +
        (computeBreakdown DEFAULT_FALLBACK_CONFIG [0x20000, 0x20001]).symbols +
        (computeBreakdown DEFAULT_FALLBACK_CONFIG [0x20000, 0x20001]).overhead) *
        DEFAULT_FALLBACK_CONFIG.mixedTextMultiplier *
        calculateAdjustmentFactor
          (analyzeTextComposition [0x20000, 0x20001]).cjkRatio⌉ : ℤ) : ℚ) = 13
    rw [hc, hl, hd, hs, ho, hg, hratio, adj_zero, hov, hmul]
    have hcjk : cjkSubtotal DEFAULT_FALLBACK_CONFIG
        [(CharType.symbol, [0x20000, 0x20001])] = 0 := by
      simp [cjkSubtotal, runsOf]
    have hlat : latinSubtotal DEFAULT_FALLBACK_CONFIG
        [(CharType.symbol, [0x20000, 0x20001])] = 0 := by
      simp [latinSubtotal, runsOf]
    have hdig : digitSubtotal DEFAULT_FALLBACK_CONFIG
        [(CharType.symbol, [0x20000, 0x20001])] = 0 := by
      simp [digitSubtotal, runsOf]
    have hsym : symbolSubtotal DEFAULT_FALLBACK_CONFIG
        [(CharType.symbol, [0x20000, 0x20001])] = 2 := by
      have h2 : (⌈(4 : ℚ) / 2.5⌉ : ℤ) = 2 := by
        rw [Int.ceil_eq_iff]; norm_num
      simp [symbolSubtotal, runsOf, hlen, DEFAULT_FALLBACK_CONFIG, jsOrQ, h2]
    rw [hcjk, hlat, hdig, hsym]
    rw [show ((0 : ℚ) + 0 + 0 + 2 + 10) * (21 / 20) * 1 = 63 / 5 by norm_num]
    rw [show (⌈(63 / 5 : ℚ)⌉ : ℤ) = 13 by rw [Int.ceil_eq_iff]; norm_num]
    norm_num
  · rw [hg, hratio, adj_zero, hov, hmul]
    have hcjk : cjkSubtotalChars DEFAULT_FALLBACK_CONFIG
        [(CharType.symbol, [0x20000, 0x20001])] = 0 := by
      simp [cjkSubtotalChars, runsOf]
    have hlat : latinSubtotalChars DEFAULT_FALLBACK_CONFIG
        [(CharType.symbol, [0x20000, 0x20001])] = 0 := by
      simp [latinSubtotalChars, runsOf]
    have hdig : digitSubtotalChars DEFAULT_FALLBACK_CONFIG
        [(CharType.symbol, [0x20000, 0x20001])] = 0 := by
      simp [digitSubtotalChars, runsOf]
    have hsym : symbolSubtotalChars DEFAULT_FALLBACK_CONFIG
        [(CharType.symbol, [0x20000, 0x20001])] = 1 := by
      have h2 : (⌈(2 : ℚ) / 2.5⌉ : ℤ) = 1 := by
        rw [Int.ceil_eq_iff]; norm_num
      simp [symbolSubtotalChars, runsOf, DEFAULT_FALLBACK_CONFIG, jsOrQ, h2]
    rw [hcjk, hlat, hdig, hsym]
    rw [show ((0 : ℚ) + 0 + 0 + 1 + 10) * (21 / 20) * 1 = 231 / 20 by norm_num]
    rw [show (⌈(231 / 20 : ℚ)⌉ : ℤ) = 12 by rw [Int.ceil_eq_iff]; norm_num]
    norm_num
